import Mathlib

/-!
Verification of the scheduling core of `src/optimisation.py`.

The function `solve(jobs, constraints, tasks, machines, downtime)` builds a
CP-SAT model and invokes the engine once.  We shallowly embed the constraint
system it emits as a decidable predicate `Feasible` on assignments of integer
start/end values to jobs, embed the objective (lines 106-109) as `makespan`,
model the engine invocation (lines 112-113) relationally by the contract of
the external CP-SAT backend, and embed the result extraction (lines 115-124)
as `solveReturn`.  All line numbers below refer to `src/optimisation.py`.
-/

namespace Optimisation

/-- The arguments of `solve` (line 5), plus the module-level dictionary
`breaks` (built at lines 183-190) which `solve` reads as a global at line 87.
`tasks` is the dict `{(job, machine): duration}` in insertion order; note that
in `__main__` the downtime entries have already been merged into `tasks`
(lines 178-179) before `solve` is called, so downtime pseudo-jobs appear in
`tasks` like any other job.  Durations and window bounds are Python ints,
embedded as `Int`. -/
structure Instance where
  jobs : List Nat
  tasks : List ((Nat × Nat) × Int)
  constraints : List (Nat × Nat)
  machines : List Nat
  downtime : List ((Nat × Nat) × (Int × Int × Int))
  breaks : List (Nat × List (Int × Int))

/-- A valuation of the decision variables `start[job]`, `end[job]`
(lines 10-11). -/
structure Assign where
  start : Nat → Int
  end_ : Nat → Int

/-- Lines 10-11: every `start[job]` and `end[job]` variable has domain
`[0, 1000]`. -/
def boundsOk (inst : Instance) (a : Assign) : Bool :=
  inst.jobs.all (fun job =>
    decide (0 ≤ a.start job) && decide (a.start job ≤ 1000) &&
    decide (0 ≤ a.end_ job) && decide (a.end_ job ≤ 1000))

/-- Lines 14-16: for every key `(job, machine)` of `tasks`,
`end[job] == start[job] + tasks[(job, machine)]`. -/
def durationOk (inst : Instance) (a : Assign) : Bool :=
  inst.tasks.all (fun p => decide (a.end_ p.1.1 = a.start p.1.1 + p.2))

/-- Lines 19-20: for every `(job1, job2)` in `constraints`,
`start[job1] >= end[job2]`. -/
def precedenceOk (inst : Instance) (a : Assign) : Bool :=
  inst.constraints.all (fun c => decide (a.start c.1 ≥ a.end_ c.2))

/-- Line 26: the tasks entries whose machine component is `machine`. -/
def machineTasks (inst : Instance) (machine : Nat) : List ((Nat × Nat) × Int) :=
  inst.tasks.filter (fun p => p.1.2 == machine)

/-- Two half-open integer intervals `[s1, e1)` and `[s2, e2)` share no time
point.  This is the unit-demand, capacity-1 case of `AddCumulative`
(line 39) restricted to one pair of intervals; `disjointB_sound` and
`disjointB_complete` below check it against the pointwise reading. -/
def disjointB (s1 e1 s2 e2 : Int) : Bool :=
  decide (e1 ≤ s1) || decide (e2 ≤ s2) || decide (e1 ≤ s2) || decide (e2 ≤ s1)

/-- Lines 24-39: for every machine in `machines`, the intervals
`[start[job], end[job])` of the tasks on that machine (each with demand 1)
never exceed capacity 1, i.e. the intervals of two distinct jobs on the same
machine are pairwise disjoint.  (`NewIntervalVar` at line 35 also ties
`end = start + duration`, which lines 14-16 already impose.) -/
def cumulativeOk (inst : Instance) (a : Assign) : Bool :=
  inst.machines.all (fun machine =>
    (machineTasks inst machine).all (fun p =>
      (machineTasks inst machine).all (fun q =>
        p.1.1 == q.1.1 ||
        disjointB (a.start p.1.1) (a.end_ p.1.1) (a.start q.1.1) (a.end_ q.1.1))))

/-- Lines 44-46: for every downtime entry
`(job, machine) -> (duration, dt_start, dt_end)`,
`start[job] >= dt_start` and `end[job] <= dt_end`. -/
def downtimeOk (inst : Instance) (a : Assign) : Bool :=
  inst.downtime.all (fun e =>
    decide (a.start e.1.1 ≥ e.2.2.1) && decide (a.end_ e.1.1 ≤ e.2.2.2))

/-- Line 54 (and line 83): `next(m for j, m in tasks.keys() if j == job)`,
the first `tasks` key carrying this job; `None` models the `StopIteration`
raised when the job has no `tasks` entry. -/
def firstTask (inst : Instance) (job : Nat) : Option ((Nat × Nat) × Int) :=
  inst.tasks.find? (fun p => p.1.1 == job)

/-- Line 50: the hard-coded break windows applied to every job. -/
def breaks_for_all_m : List (Int × Int) := [(30, 40), (60, 70)]

/-- Lines 52-76: for every job and each window `(break_start, break_end)` of
`breaks_for_all_m`, the boolean indicators `before_break`, `after_break` with
`OnlyEnforceIf` plus `AddBoolOr` amount to
`start[job] + duration <= break_start  OR  start[job] >= break_end`,
where `duration` is the duration of the job's first `tasks` entry (line 54).
A job with no `tasks` entry makes the original raise `StopIteration` before
the model is solved, modelled as an unsatisfiable constraint. -/
def globalBreaksOk (inst : Instance) (a : Assign) : Bool :=
  inst.jobs.all (fun job =>
    match firstTask inst job with
    | some p =>
        breaks_for_all_m.all (fun w =>
          decide (a.start job + p.2 ≤ w.1) || decide (a.start job ≥ w.2))
    | none => false)

/-- Line 87: `breaks.get(machine, [])` on the module-level `breaks` dict. -/
def breaksFor (inst : Instance) (machine : Nat) : List (Int × Int) :=
  match inst.breaks.find? (fun p => p.1 == machine) with
  | some p => p.2
  | none => []

/-- Lines 81-102: for every job, the break windows of the machine found at
line 83 (the machine of the job's first `tasks` entry) are enforced exactly
like the global ones:
`start[job] + duration <= break_start  OR  start[job] >= break_end`. -/
def machineBreaksOk (inst : Instance) (a : Assign) : Bool :=
  inst.jobs.all (fun job =>
    match firstTask inst job with
    | some p =>
        (breaksFor inst p.1.2).all (fun w =>
          decide (a.start job + p.2 ≤ w.1) || decide (a.start job ≥ w.2))
    | none => false)

/-- An assignment satisfies every constraint `solve` adds to the model
(lines 10-102). -/
def Feasible (inst : Instance) (a : Assign) : Bool :=
  boundsOk inst a && durationOk inst a && precedenceOk inst a &&
  cumulativeOk inst a && downtimeOk inst a &&
  globalBreaksOk inst a && machineBreaksOk inst a

/-- The duration, precedence, no-overlap, downtime and break constraints
alone, without the variable-domain bounds of lines 10-11. -/
def LawSat (inst : Instance) (a : Assign) : Bool :=
  durationOk inst a && precedenceOk inst a && cumulativeOk inst a &&
  downtimeOk inst a && globalBreaksOk inst a && machineBreaksOk inst a

/-- Lines 106-109: `total_end_time` equals the maximum of the `end[job]`
variables and is minimized.  Every `end` value is nonnegative in any feasible
assignment (lines 10-11), so folding `max` from `0` agrees with
`AddMaxEquality` whenever `jobs` is nonempty. -/
def makespan (inst : Instance) (a : Assign) : Int :=
  (inst.jobs.map a.end_).foldl max 0

/-- The four terminal statuses of the CP-SAT engine used by `solve`
(spec section 4.2). -/
inductive Status
  | optimal
  | feasible
  | infeasible
  | unknown
deriving DecidableEq

/-- Contract of the engine invocation at lines 112-113 (the backend is an
external collaborator; spec section 4.2): on OPTIMAL it returns a feasible
assignment of minimal objective; on FEASIBLE a feasible assignment; on
INFEASIBLE it certifies that no feasible assignment exists; on UNKNOWN it
returns no assignment. -/
def EngineOk (inst : Instance) (st : Status) (a : Option Assign) : Prop :=
  match st, a with
  | .optimal, some σ =>
      Feasible inst σ = true ∧
      ∀ τ, Feasible inst τ = true → makespan inst σ ≤ makespan inst τ
  | .feasible, some σ => Feasible inst σ = true
  | .infeasible, none => ∀ τ, Feasible inst τ = false
  | .unknown, none => True
  | _, _ => False

/-- The Python value returned by `solve`: `None`, an int, a dict keyed by
job ids, or a 2-tuple. -/
inductive PyVal
  | noneV
  | intV (n : Int)
  | dictV (entries : List (Nat × Int))
  | pairV (fst snd : PyVal)
deriving DecidableEq

/-- Lines 115-124: on OPTIMAL or FEASIBLE, `solve` returns the tuple
`(start_times, end_times)` of the two per-job dicts built at lines 117-118;
otherwise it returns `(None, None)` (line 124).  No other data (in
particular no objective value and no status tag) is part of the return. -/
def solveReturn (inst : Instance) (st : Status) (a : Option Assign) : PyVal :=
  match st, a with
  | .optimal, some σ =>
      .pairV (.dictV (inst.jobs.map (fun j => (j, σ.start j))))
             (.dictV (inst.jobs.map (fun j => (j, σ.end_ j))))
  | .feasible, some σ =>
      .pairV (.dictV (inst.jobs.map (fun j => (j, σ.start j))))
             (.dictV (inst.jobs.map (fun j => (j, σ.end_ j))))
  | _, _ => .pairV .noneV .noneV

/-- One run of `solve` on `inst`: the engine produced `(st, a)` within its
contract, and the function returned the value of lines 115-124. -/
def solveRel (inst : Instance) (st : Status) (a : Option Assign) (ret : PyVal) : Prop :=
  EngineOk inst st a ∧ ret = solveReturn inst st a

/-- `solve` returned the schedule `σ`: the engine stopped with OPTIMAL or
FEASIBLE and lines 117-121 delivered the start and end values of `σ`. -/
def Returns (inst : Instance) (σ : Assign) : Prop :=
  ∃ st ret, (st = Status.optimal ∨ st = Status.feasible) ∧
    solveRel inst st (some σ) ret

/-- One job of duration 5 on machine 1, no precedences, no downtime, no
per-machine breaks. -/
def inst1 : Instance := ⟨[1], [((1, 1), 5)], [], [1], [], []⟩

/-- A feasible but sub-optimal schedule for `inst1`: the job runs in
`[10, 15)`. -/
def σ1a : Assign := ⟨fun _ => 10, fun _ => 15⟩

/-- The optimal schedule for `inst1`: the job runs in `[0, 5)`. -/
def σ1b : Assign := ⟨fun _ => 0, fun _ => 5⟩

/-- Two jobs of durations 5 and 3 on the same machine. -/
def inst2 : Instance := ⟨[1, 2], [((1, 1), 5), ((2, 1), 3)], [], [1], [], []⟩

/-- A schedule for `inst2`: job 1 in `[0, 5)`, job 2 in `[5, 8)`. -/
def σ2 : Assign :=
  ⟨fun j => if j = 1 then 0 else 5, fun j => if j = 1 then 5 else 8⟩

/-- One job carried by two `tasks` entries, on machines 0 and 2; machine 2
has the break window `(3, 100)`. -/
def inst3 : Instance :=
  ⟨[1], [((1, 0), 5), ((1, 2), 5)], [], [0, 2], [], [(2, [(3, 100)])]⟩

/-- A schedule for `inst3`: job 1 runs in `[0, 5)`. -/
def σ3 : Assign := ⟨fun _ => 0, fun _ => 5⟩

/-- One job of duration 5 on machine 1, whose machine has the break window
`(10, 20)`. -/
def inst3w : Instance := ⟨[1], [((1, 1), 5)], [], [1], [], [(1, [(10, 20)])]⟩

/-- A schedule for `inst3w`: job 1 runs in `[0, 5)`, before the break. -/
def σ3w : Assign := ⟨fun _ => 0, fun _ => 5⟩

/-- Job 1 (duration 4) precedes job 2 (duration 6) on one machine. -/
def inst5 : Instance :=
  ⟨[1, 2], [((1, 1), 4), ((2, 1), 6)], [(2, 1)], [1], [], []⟩

/-- A schedule for `inst5`: job 1 in `[0, 4)`, job 2 in `[4, 10)`. -/
def σ5 : Assign :=
  ⟨fun j => if j = 1 then 0 else 4, fun j => if j = 1 then 4 else 10⟩

/-- One job of duration 5 on machine 1. -/
def inst6 : Instance := ⟨[1], [((1, 1), 5)], [], [1], [], []⟩

/-- A schedule for `inst6`: the job runs in `[0, 5)`. -/
def σ6 : Assign := ⟨fun _ => 0, fun _ => 5⟩

/-- An invalid input per the spec: job 1 has duration 0 and a
self-precedence `(1, 1)`. -/
def inst7 : Instance := ⟨[1], [((1, 1), 0)], [(1, 1)], [1], [], []⟩

/-- A schedule for `inst7`: the zero-length job at time 0. -/
def σ7 : Assign := ⟨fun _ => 0, fun _ => 0⟩

/-- One job of duration 5 on machine 1 (a satisfiable instance). -/
def inst8 : Instance := ⟨[1], [((1, 1), 5)], [], [1], [], []⟩

/-- A structurally infeasible instance: job 1 has duration 50 but its
downtime window `[0, 20]` is only 20 long. -/
def instI : Instance :=
  ⟨[1], [((1, 1), 50)], [], [1], [((1, 1), (50, 0, 20))], []⟩

/-- One job of duration 5 on machine 1 (for the fixed-window claim). -/
def inst9 : Instance := ⟨[1], [((1, 1), 5)], [], [1], [], []⟩

/-- A schedule for `inst9`: the job runs in `[40, 45)`, between the two
hard-coded windows. -/
def σ9 : Assign := ⟨fun _ => 40, fun _ => 45⟩

/-- An instance every law-satisfying schedule of which ends after 1000:
job 1 (duration 5) has the downtime window `[2000, 5000]`. -/
def inst10 : Instance :=
  ⟨[1], [((1, 1), 5)], [], [1], [((1, 1), (5, 2000, 5000))], []⟩

/-- One job of duration 3 on machine 1 (for the bounds half of C10). -/
def inst10a : Instance := ⟨[1], [((1, 1), 3)], [], [1], [], []⟩

/-- A schedule for `inst10a`: the job runs in `[0, 3)`. -/
def σ10a : Assign := ⟨fun _ => 0, fun _ => 3⟩

theorem feasible_parts (inst : Instance) (σ : Assign) (h : Feasible inst σ = true) :
    boundsOk inst σ = true ∧ durationOk inst σ = true ∧ precedenceOk inst σ = true ∧
    cumulativeOk inst σ = true ∧ downtimeOk inst σ = true ∧
    globalBreaksOk inst σ = true ∧ machineBreaksOk inst σ = true := by
  simpa [Feasible, Bool.and_eq_true, and_assoc] using h

theorem lawSat_parts (inst : Instance) (σ : Assign) (h : LawSat inst σ = true) :
    durationOk inst σ = true ∧ precedenceOk inst σ = true ∧
    cumulativeOk inst σ = true ∧ downtimeOk inst σ = true ∧
    globalBreaksOk inst σ = true ∧ machineBreaksOk inst σ = true := by
  simpa [LawSat, Bool.and_eq_true, and_assoc] using h

theorem feasible_lawSat (inst : Instance) (σ : Assign) (h : Feasible inst σ = true) :
    LawSat inst σ = true := by
  have hp := feasible_parts inst σ h
  simp [LawSat, Bool.and_eq_true]
  tauto

theorem returns_feasible (inst : Instance) (σ : Assign) (h : Returns inst σ) :
    Feasible inst σ = true := by
  obtain ⟨st, ret, hst, hrel⟩ := h
  rcases hst with h1 | h1 <;> subst h1
  · exact hrel.1.1
  · exact hrel.1

theorem returns_of_feasible (inst : Instance) (σ : Assign)
    (hf : Feasible inst σ = true) : Returns inst σ :=
  ⟨Status.feasible, solveReturn inst Status.feasible (some σ), Or.inr rfl, hf, rfl⟩

theorem boundsOk_spec (inst : Instance) (σ : Assign) (h : boundsOk inst σ = true) :
    ∀ j ∈ inst.jobs,
      (0 ≤ σ.start j ∧ σ.start j ≤ 1000) ∧ (0 ≤ σ.end_ j ∧ σ.end_ j ≤ 1000) := by
  intro j hj
  have := List.all_eq_true.mp h j hj
  simp only [Bool.and_eq_true, decide_eq_true_eq] at this
  tauto

theorem durationOk_spec (inst : Instance) (σ : Assign) (h : durationOk inst σ = true) :
    ∀ p ∈ inst.tasks, σ.end_ p.1.1 = σ.start p.1.1 + p.2 := by
  intro p hp
  have := List.all_eq_true.mp h p hp
  simpa using this

theorem precedenceOk_spec (inst : Instance) (σ : Assign)
    (h : precedenceOk inst σ = true) :
    ∀ c ∈ inst.constraints, σ.start c.1 ≥ σ.end_ c.2 := by
  intro c hc
  have := List.all_eq_true.mp h c hc
  simpa using this

theorem downtimeOk_spec (inst : Instance) (σ : Assign) (h : downtimeOk inst σ = true) :
    ∀ e ∈ inst.downtime, σ.start e.1.1 ≥ e.2.2.1 ∧ σ.end_ e.1.1 ≤ e.2.2.2 := by
  intro e he
  have := List.all_eq_true.mp h e he
  simp only [Bool.and_eq_true, decide_eq_true_eq] at this
  exact this

theorem disjointB_sound {s1 e1 s2 e2 : Int} (h : disjointB s1 e1 s2 e2 = true) :
    ∀ t : Int, ¬((s1 ≤ t ∧ t < e1) ∧ (s2 ≤ t ∧ t < e2)) := by
  intro t ht
  simp only [disjointB, Bool.or_eq_true, decide_eq_true_eq] at h
  omega

theorem disjointB_complete {s1 e1 s2 e2 : Int}
    (h : ∀ t : Int, ¬((s1 ≤ t ∧ t < e1) ∧ (s2 ≤ t ∧ t < e2))) :
    disjointB s1 e1 s2 e2 = true := by
  by_contra hb
  simp only [disjointB, Bool.or_eq_true, decide_eq_true_eq, not_or, not_le] at hb
  obtain ⟨⟨⟨h1, h2⟩, h3⟩, h4⟩ := hb
  exact h (max s1 s2)
    ⟨⟨le_max_left s1 s2, max_lt h1 h3⟩,
     ⟨le_max_right s1 s2, max_lt h4 h2⟩⟩

/-- C2: in every schedule returned by `solve`, for every machine and every
pair of `tasks` entries on that machine carrying distinct jobs (downtime
entries having been merged into `tasks` at lines 178-179 before the call),
the half-open intervals `[start, end)` of the two jobs share no time point. -/
theorem c2_no_overlap (inst : Instance) (σ : Assign) (h : Returns inst σ) :
    ∀ m ∈ inst.machines, ∀ p ∈ inst.tasks, ∀ q ∈ inst.tasks,
      p.1.2 = m → q.1.2 = m → p.1.1 ≠ q.1.1 →
      ∀ t : Int, ¬((σ.start p.1.1 ≤ t ∧ t < σ.end_ p.1.1) ∧
                   (σ.start q.1.1 ≤ t ∧ t < σ.end_ q.1.1)) := by
  intro m hm p hp q hq hpm hqm hne t hcontra
  have hcum : cumulativeOk inst σ = true :=
    (feasible_parts inst σ (returns_feasible inst σ h)).2.2.2.1
  have h1 : (machineTasks inst m).all (fun p =>
      (machineTasks inst m).all (fun q =>
        p.1.1 == q.1.1 ||
        disjointB (σ.start p.1.1) (σ.end_ p.1.1)
          (σ.start q.1.1) (σ.end_ q.1.1))) = true :=
    List.all_eq_true.mp hcum m hm
  have hpmem : p ∈ machineTasks inst m :=
    List.mem_filter.mpr ⟨hp, by simpa using hpm⟩
  have hqmem : q ∈ machineTasks inst m :=
    List.mem_filter.mpr ⟨hq, by simpa using hqm⟩
  have h2 := List.all_eq_true.mp (List.all_eq_true.mp h1 p hpmem) q hqmem
  rw [Bool.or_eq_true] at h2
  rcases h2 with h2 | h2
  · exact hne (by simpa using h2)
  · exact disjointB_sound h2 t hcontra

/-- C2 witness at `inst2`: the returned intervals `[0, 5)` of job 1 and
`[5, 8)` of job 2 on machine 1 do not both contain the time point 3. -/
theorem c2_witness :
    ¬((σ2.start 1 ≤ (3 : Int) ∧ (3 : Int) < σ2.end_ 1) ∧
      (σ2.start 2 ≤ (3 : Int) ∧ (3 : Int) < σ2.end_ 2)) :=
  c2_no_overlap inst2 σ2 (returns_of_feasible inst2 σ2 (by decide)) 1 (by decide)
    ((1, 1), 5) (by decide) ((2, 1), 3) (by decide) rfl rfl (by decide) 3

/-- C4: in every schedule returned by `solve`, for every `tasks` entry
(downtime entries included, since they were merged into `tasks`),
`end[job] = start[job] + duration`. -/
theorem c4_duration_law (inst : Instance) (σ : Assign) (h : Returns inst σ) :
    ∀ p ∈ inst.tasks, σ.end_ p.1.1 = σ.start p.1.1 + p.2 :=
  durationOk_spec inst σ (feasible_parts inst σ (returns_feasible inst σ h)).2.1

/-- C4 witness at `inst6`: the returned schedule has `end = start + 5` for
job 1. -/
theorem c4_witness : σ6.end_ 1 = σ6.start 1 + 5 :=
  c4_duration_law inst6 σ6 (returns_of_feasible inst6 σ6 (by decide))
    ((1, 1), 5) (by decide)

/-- C5: in every schedule returned by `solve`, for every precedence pair
`(job, predecessor)` in `constraints`, `start[job] >= end[predecessor]`. -/
theorem c5_precedence_law (inst : Instance) (σ : Assign) (h : Returns inst σ) :
    ∀ c ∈ inst.constraints, σ.start c.1 ≥ σ.end_ c.2 :=
  precedenceOk_spec inst σ
    (feasible_parts inst σ (returns_feasible inst σ h)).2.2.1

/-- C5 witness at `inst5`: job 2 starts no earlier than job 1 ends. -/
theorem c5_witness : σ5.start 2 ≥ σ5.end_ 1 :=
  c5_precedence_law inst5 σ5 (returns_of_feasible inst5 σ5 (by decide))
    (2, 1) (by decide)

/-- C9: in every schedule returned by `solve`, every job avoids the two
hard-coded windows of line 50, whatever the `breaks` input: its interval is
fully before or fully after `[30, 40]`, and fully before or fully after
`[60, 70]`. -/
theorem c9_fixed_windows (inst : Instance) (σ : Assign) (h : Returns inst σ) :
    ∀ job ∈ inst.jobs,
      (σ.end_ job ≤ 30 ∨ σ.start job ≥ 40) ∧
      (σ.end_ job ≤ 60 ∨ σ.start job ≥ 70) := by
  intro job hjob
  have hf := returns_feasible inst σ h
  have hg : globalBreaksOk inst σ = true :=
    (feasible_parts inst σ hf).2.2.2.2.2.1
  have hd := (feasible_parts inst σ hf).2.1
  simp only [globalBreaksOk, List.all_eq_true] at hg
  have hall := hg job hjob
  cases hft : firstTask inst job with
  | none => rw [hft] at hall; simp at hall
  | some p =>
      rw [hft] at hall
      have hmem : p ∈ inst.tasks := List.mem_of_find?_eq_some hft
      have hjeq : p.1.1 = job := by simpa using List.find?_some hft
      have hdur : σ.end_ p.1.1 = σ.start p.1.1 + p.2 :=
        durationOk_spec inst σ hd p hmem
      rw [hjeq] at hdur
      simp only [breaks_for_all_m, List.all_cons, List.all_nil, Bool.and_eq_true,
        Bool.and_true, Bool.or_eq_true, decide_eq_true_eq] at hall
      omega

/-- C9 witness at `inst9`: the returned interval `[40, 45)` is after
`[30, 40]` and before `[60, 70]`. -/
theorem c9_witness :
    (σ9.end_ 1 ≤ 30 ∨ σ9.start 1 ≥ 40) ∧
    (σ9.end_ 1 ≤ 60 ∨ σ9.start 1 ≥ 70) :=
  c9_fixed_windows inst9 σ9 (returns_of_feasible inst9 σ9 (by decide))
    1 (by decide)

theorem inst1_min (τ : Assign) (hf : Feasible inst1 τ = true) :
    makespan inst1 σ1b ≤ makespan inst1 τ := by
  have hb : (0 ≤ τ.start 1 ∧ τ.start 1 ≤ 1000) ∧
      (0 ≤ τ.end_ 1 ∧ τ.end_ 1 ≤ 1000) :=
    boundsOk_spec inst1 τ (feasible_parts inst1 τ hf).1 1 (by decide)
  have hd : τ.end_ 1 = τ.start 1 + 5 :=
    durationOk_spec inst1 τ (feasible_parts inst1 τ hf).2.1 ((1, 1), 5) (by decide)
  have h5 : (5 : Int) ≤ τ.end_ 1 := by omega
  have hm : makespan inst1 σ1b = 5 := by decide
  have hmt : makespan inst1 τ = max 0 (τ.end_ 1) := rfl
  rw [hm, hmt]
  exact le_trans h5 (le_max_right 0 (τ.end_ 1))

/-- C1 counterexample: on `inst1` the engine may stop with FEASIBLE (e.g. on
a budget) and `solve` then returns `σ1a` with makespan 15, while `σ1b` is
also feasible with makespan 5 — so the makespan of a returned schedule does
not always equal the minimum over feasible schedules. -/
theorem c1_counterexample :
    Returns inst1 σ1a ∧ Feasible inst1 σ1b = true ∧
    makespan inst1 σ1b < makespan inst1 σ1a :=
  ⟨returns_of_feasible inst1 σ1a (by decide), by decide, by decide⟩

/-- C1 (amended): when the engine proves optimality (status OPTIMAL), the
makespan of the schedule returned by `solve` is the least makespan over all
assignments satisfying the model's constraints. -/
theorem c1_optimal_makespan_least (inst : Instance) (σ : Assign) (ret : PyVal)
    (h : solveRel inst Status.optimal (some σ) ret) :
    IsLeast {v : Int | ∃ τ, Feasible inst τ = true ∧ makespan inst τ = v}
      (makespan inst σ) :=
  ⟨⟨σ, h.1.1, rfl⟩, fun v hv => by
    obtain ⟨τ, hτ, hveq⟩ := hv
    exact hveq ▸ h.1.2 τ hτ⟩

/-- C1 witness at `inst1`: an OPTIMAL run returns `σ1b`, whose makespan 5 is
the least over all feasible schedules. -/
theorem c1_witness :
    IsLeast {v : Int | ∃ τ, Feasible inst1 τ = true ∧ makespan inst1 τ = v}
      (makespan inst1 σ1b) :=
  c1_optimal_makespan_least inst1 σ1b
    (solveReturn inst1 Status.optimal (some σ1b))
    ⟨⟨by decide, inst1_min⟩, rfl⟩

/-- C3 counterexample: in the schedule `σ3` returned for `inst3`, job 1 is
assigned to machine 2 (entry `((1,2),5)` of `tasks`) and machine 2 has the
break window `(3, 100)`, yet job 1's interval `[0, 5)` straddles it: the
per-machine break constraints of lines 81-102 only use the machine of the
job's first `tasks` entry (machine 0 here). -/
theorem c3_counterexample :
    Returns inst3 σ3 ∧ ((1, 2), (5 : Int)) ∈ inst3.tasks ∧
    (2, [((3 : Int), (100 : Int))]) ∈ inst3.breaks ∧
    ¬(σ3.end_ 1 ≤ 3 ∨ σ3.start 1 ≥ 100) :=
  ⟨returns_of_feasible inst3 σ3 (by decide), by decide, by decide, by decide⟩

/-- C3 (amended): in every schedule returned by `solve`, for every job, the
break windows registered for the machine of the job's first `tasks` entry
(the machine selected at line 83) are respected: the job ends at or before
`breakStart` or starts at or after `breakEnd`.  Windows of any further
machine carrying the same job id are not enforced. -/
theorem c3_first_machine_breaks (inst : Instance) (σ : Assign) (h : Returns inst σ) :
    ∀ job ∈ inst.jobs, ∀ p, firstTask inst job = some p →
      ∀ w ∈ breaksFor inst p.1.2, σ.end_ job ≤ w.1 ∨ σ.start job ≥ w.2 := by
  intro job hjob p hft w hw
  have hf := returns_feasible inst σ h
  have hmb : machineBreaksOk inst σ = true :=
    (feasible_parts inst σ hf).2.2.2.2.2.2
  have hd := (feasible_parts inst σ hf).2.1
  simp only [machineBreaksOk, List.all_eq_true] at hmb
  have hall := hmb job hjob
  rw [hft] at hall
  have hall2 : (breaksFor inst p.1.2).all (fun w =>
      decide (σ.start job + p.2 ≤ w.1) || decide (σ.start job ≥ w.2)) = true := hall
  have hmem : p ∈ inst.tasks := List.mem_of_find?_eq_some hft
  have hjeq : p.1.1 = job := by simpa using List.find?_some hft
  have hdur : σ.end_ p.1.1 = σ.start p.1.1 + p.2 :=
    durationOk_spec inst σ hd p hmem
  rw [hjeq] at hdur
  have hw2 := List.all_eq_true.mp hall2 w hw
  simp only [Bool.or_eq_true, decide_eq_true_eq] at hw2
  omega

/-- C3 witness at `inst3w`: job 1 (machine 1, break `(10, 20)`) ends at 5,
before the break window. -/
theorem c3_witness : σ3w.end_ 1 ≤ 10 ∨ σ3w.start 1 ≥ 20 :=
  c3_first_machine_breaks inst3w σ3w (returns_of_feasible inst3w σ3w (by decide))
    1 (by decide) ((1, 1), 5) rfl (10, 20) (by decide)

/-- C6 counterexample: on a successful solve of `inst6` the returned value is
exactly the pair of the two timing dicts; the achieved makespan value 5 is
not a component of the output. -/
theorem c6_counterexample :
    solveRel inst6 Status.feasible (some σ6)
      (PyVal.pairV (PyVal.dictV [(1, 0)]) (PyVal.dictV [(1, 5)])) ∧
    makespan inst6 σ6 = 5 ∧
    PyVal.dictV [(1, 0)] ≠ PyVal.intV 5 ∧
    PyVal.dictV [(1, 5)] ≠ PyVal.intV 5 :=
  ⟨⟨(show Feasible inst6 σ6 = true by decide), by decide⟩,
   by decide, by decide, by decide⟩

/-- C6 (amended): on success (OPTIMAL or FEASIBLE) the value delivered to the
caller is the pair `(start_times, end_times)` of per-job dicts and nothing
else; the achieved makespan is not delivered (it is recoverable as the
maximum of the end values). -/
theorem c6_success_output (inst : Instance) (σ : Assign) (st : Status)
    (ret : PyVal) (hst : st = Status.optimal ∨ st = Status.feasible)
    (h : solveRel inst st (some σ) ret) :
    ret = PyVal.pairV
      (PyVal.dictV (inst.jobs.map (fun j => (j, σ.start j))))
      (PyVal.dictV (inst.jobs.map (fun j => (j, σ.end_ j)))) := by
  rcases hst with h1 | h1 <;> subst h1 <;> exact h.2

/-- C6 witness at `inst6`. -/
theorem c6_witness :
    solveReturn inst6 Status.feasible (some σ6) =
      PyVal.pairV
        (PyVal.dictV (inst6.jobs.map (fun j => (j, σ6.start j))))
        (PyVal.dictV (inst6.jobs.map (fun j => (j, σ6.end_ j)))) :=
  c6_success_output inst6 σ6 Status.feasible _ (Or.inr rfl)
    ⟨(show Feasible inst6 σ6 = true by decide), rfl⟩

theorem inst7_min (τ : Assign) (_hf : Feasible inst7 τ = true) :
    makespan inst7 σ7 ≤ makespan inst7 τ := by
  have hm : makespan inst7 σ7 = 0 := by decide
  have hmt : makespan inst7 τ = max 0 (τ.end_ 1) := rfl
  rw [hm, hmt]
  exact le_max_left 0 (τ.end_ 1)

/-- C7 counterexample: `inst7` contains a zero-duration task and a
self-precedence, yet `solve` emits its model, invokes the engine (here
returning OPTIMAL) and delivers a schedule instead of rejecting the input
with a validation failure before any constraint is emitted. -/
theorem c7_counterexample :
    inst7.tasks.any (fun p => decide (p.2 ≤ 0)) = true ∧
    inst7.constraints.any (fun c => c.1 == c.2) = true ∧
    solveRel inst7 Status.optimal (some σ7)
      (PyVal.pairV (PyVal.dictV [(1, 0)]) (PyVal.dictV [(1, 0)])) ∧
    PyVal.pairV (PyVal.dictV [((1 : Nat), (0 : Int))]) (PyVal.dictV [(1, 0)]) ≠
      PyVal.pairV PyVal.noneV PyVal.noneV :=
  ⟨by decide, by decide,
   ⟨⟨(show Feasible inst7 σ7 = true by decide), inst7_min⟩, by decide⟩,
   by decide⟩

/-- C7 (amended): `solve` performs no input validation: whenever its model is
satisfiable, any input — zero or negative durations and self-precedences
included — reaches the engine and can produce a returned schedule.  (A
precedence naming a job absent from `jobs` raises an uncaught `KeyError` at
line 20, not a validation failure describing the field.) -/
theorem c7_no_validation (inst : Instance) (σ : Assign)
    (hf : Feasible inst σ = true) :
    solveRel inst Status.feasible (some σ)
      (solveReturn inst Status.feasible (some σ)) :=
  ⟨hf, rfl⟩

/-- C7 witness: the invalid input `inst7` flows through `solve` unrejected. -/
theorem c7_witness :
    solveRel inst7 Status.feasible (some σ7)
      (solveReturn inst7 Status.feasible (some σ7)) :=
  c7_no_validation inst7 σ7 (by decide)

theorem instI_infeasible (τ : Assign) : Feasible instI τ = false := by
  rw [Bool.eq_false_iff]
  intro hf
  have hb : (0 ≤ τ.start 1 ∧ τ.start 1 ≤ 1000) ∧
      (0 ≤ τ.end_ 1 ∧ τ.end_ 1 ≤ 1000) :=
    boundsOk_spec instI τ (feasible_parts instI τ hf).1 1 (by decide)
  have hd : τ.end_ 1 = τ.start 1 + 50 :=
    durationOk_spec instI τ (feasible_parts instI τ hf).2.1 ((1, 1), 50) (by decide)
  have hdt : τ.start 1 ≥ 0 ∧ τ.end_ 1 ≤ 20 :=
    downtimeOk_spec instI τ (feasible_parts instI τ hf).2.2.2.2.1
      ((1, 1), (50, 0, 20)) (by decide)
  omega

/-- C8 counterexample: the engine returns INFEASIBLE on `instI` and UNKNOWN
is possible on `inst8`; in both cases `solve` returns the identical value
`(None, None)` — no status tag distinguishes the two failure kinds. -/
theorem c8_counterexample :
    solveRel instI Status.infeasible none (PyVal.pairV PyVal.noneV PyVal.noneV) ∧
    solveRel inst8 Status.unknown none (PyVal.pairV PyVal.noneV PyVal.noneV) ∧
    solveReturn instI Status.infeasible none =
      solveReturn inst8 Status.unknown none :=
  ⟨⟨instI_infeasible, rfl⟩, ⟨trivial, rfl⟩, rfl⟩

/-- C8 (amended): whenever the engine returns INFEASIBLE or UNKNOWN, `solve`
returns the tuple `(None, None)`: no timing data is delivered, but no status
tag either — the two failure kinds produce identical return values. -/
theorem c8_failure_output (inst : Instance) (st : Status) (a : Option Assign)
    (ret : PyVal) (hst : st = Status.infeasible ∨ st = Status.unknown)
    (h : solveRel inst st a ret) :
    ret = PyVal.pairV PyVal.noneV PyVal.noneV := by
  rcases hst with h1 | h1 <;> subst h1 <;> cases a <;> exact h.2

/-- C8 witness: an UNKNOWN run on `inst8` returns `(None, None)`. -/
theorem c8_witness :
    solveReturn inst8 Status.unknown none =
      PyVal.pairV PyVal.noneV PyVal.noneV :=
  c8_failure_output inst8 Status.unknown none _ (Or.inr rfl) ⟨trivial, rfl⟩

theorem inst10_law (τ : Assign) (hl : LawSat inst10 τ = true) :
    ∃ j ∈ inst10.jobs, 1000 < τ.end_ j := by
  have hd : τ.end_ 1 = τ.start 1 + 5 :=
    durationOk_spec inst10 τ (lawSat_parts inst10 τ hl).1 ((1, 1), 5) (by decide)
  have hdt : τ.start 1 ≥ 2000 ∧ τ.end_ 1 ≤ 5000 :=
    downtimeOk_spec inst10 τ (lawSat_parts inst10 τ hl).2.2.2.1
      ((1, 1), (5, 2000, 5000)) (by decide)
  exact ⟨1, by decide, by omega⟩

/-- C10: every start and end value of a returned schedule lies in `[0, 1000]`
(the variable domains of lines 10-11); consequently, if every assignment
satisfying the duration, precedence, no-overlap, downtime and break
constraints makes some job end after 1000, `solve` returns no schedule,
only `(None, None)`. -/
theorem c10_horizon (inst : Instance) :
    (∀ σ, Returns inst σ → ∀ j ∈ inst.jobs,
        (0 ≤ σ.start j ∧ σ.start j ≤ 1000) ∧
        (0 ≤ σ.end_ j ∧ σ.end_ j ≤ 1000)) ∧
    ((∀ τ, LawSat inst τ = true → ∃ j ∈ inst.jobs, 1000 < τ.end_ j) →
      ∀ st a ret, solveRel inst st a ret →
        ret = PyVal.pairV PyVal.noneV PyVal.noneV) := by
  constructor
  · intro σ h j hj
    exact boundsOk_spec inst σ
      (feasible_parts inst σ (returns_feasible inst σ h)).1 j hj
  · intro hlaw st a ret h
    have hfail : ∀ σ, Feasible inst σ = true → False := by
      intro σ hf
      obtain ⟨j, hj, hlt⟩ := hlaw σ (feasible_lawSat inst σ hf)
      have hb := boundsOk_spec inst σ (feasible_parts inst σ hf).1 j hj
      omega
    cases st with
    | optimal =>
        cases a with
        | some σ => exact (hfail σ h.1.1).elim
        | none => exact h.1.elim
    | feasible =>
        cases a with
        | some σ => exact (hfail σ h.1).elim
        | none => exact h.1.elim
    | infeasible => cases a <;> exact h.2
    | unknown => cases a <;> exact h.2

/-- C10 witness: `inst10a`'s returned values lie in `[0, 1000]`, and on
`inst10` — where every law-satisfying schedule ends after 1000 — `solve`
returns `(None, None)`. -/
theorem c10_witness :
    (((0 : Int) ≤ σ10a.start 1 ∧ σ10a.start 1 ≤ 1000) ∧
      ((0 : Int) ≤ σ10a.end_ 1 ∧ σ10a.end_ 1 ≤ 1000)) ∧
    solveReturn inst10 Status.unknown none =
      PyVal.pairV PyVal.noneV PyVal.noneV :=
  ⟨(c10_horizon inst10a).1 σ10a
      (returns_of_feasible inst10a σ10a (by decide)) 1 (by decide),
   (c10_horizon inst10).2 inst10_law Status.unknown none _ ⟨trivial, rfl⟩⟩

end Optimisation
